import Mathlib

/-!
Verification of the core of `cybercommand-missao-teclado` (src/app.py), a
Streamlit keyboard-shortcut training game.  The Python source is shallowly
embedded: the mutable Streamlit session state becomes an explicit `GState`
record threaded through pure transition functions, Python strings become
`String` (or `List Char` where character-level reasoning is required),
Python `datetime` arithmetic is abstracted by an explicit elapsed-seconds
parameter, and the client-side JavaScript shortcut guard becomes a pure
state machine on a `GuardState` record.  ASCII-only case conversion models
Python's `str.upper` / `str.lower` / `str.capitalize` on the inputs the
program manipulates.
-/

namespace CyberCommand

/-! ## Character-level helpers for `normalize_combo` (app.py lines 124-166) -/

/-- Separator characters of the Python regex `[+\s]+` used by
`normalize_combo` (ASCII whitespace plus the plus sign). -/
def isSepChar (c : Char) : Bool :=
  c == '+' || c == ' ' || c == '\t' || c == '\n' || c == '\r' || c == '\x0b' || c == '\x0c'

/-- ASCII lower/upper case pairs, modelling Python case conversion on the
ASCII letters. -/
def asciiCase : List (Char × Char) :=
  [('a', 'A'), ('b', 'B'), ('c', 'C'), ('d', 'D'), ('e', 'E'), ('f', 'F'),
   ('g', 'G'), ('h', 'H'), ('i', 'I'), ('j', 'J'), ('k', 'K'), ('l', 'L'),
   ('m', 'M'), ('n', 'N'), ('o', 'O'), ('p', 'P'), ('q', 'Q'), ('r', 'R'),
   ('s', 'S'), ('t', 'T'), ('u', 'U'), ('v', 'V'), ('w', 'W'), ('x', 'X'),
   ('y', 'Y'), ('z', 'Z')]

/-- `str.upper` on one character (ASCII). -/
def upChar (c : Char) : Char :=
  match asciiCase.find? (fun p => p.1 == c) with
  | some p => p.2
  | none => c

/-- `str.lower` on one character.  Python lower-casing is non-expanding on
the character set this development reasons about (all of ASCII, plus `ß`,
which is a fixed point of `str.lower`); characters outside the modeled set
are mapped to themselves. -/
def downChar (c : Char) : Char :=
  match asciiCase.find? (fun p => p.2 == c) with
  | some p => p.1
  | none => c

/-- One character of `str.upper`.  Python upper-casing can expand a
character to several: `'ß'.upper() = "SS"`.  The model covers ASCII exactly
and the expanding `ß`; other characters are mapped to themselves. -/
def upCharStr (c : Char) : List Char :=
  if c = 'ß' then ['S', 'S'] else [upChar c]

/-- One character of the title-casing used by `str.capitalize` (Python ≥
3.8) for the first character: `'ß'.capitalize() = "Ss"`.  Same modeled set
as `upCharStr`. -/
def titleCharStr (c : Char) : List Char :=
  if c = 'ß' then ['S', 's'] else [upChar c]

/-- `str.upper` on a token: each character maps to its (possibly expanded)
uppercase form. -/
def pyUpper (t : List Char) : List Char := (t.map upCharStr).flatten

/-- `str.capitalize`: first character title-cased (possibly expanded), the
rest lower-cased. -/
def pyCapitalize : List Char → List Char
  | [] => []
  | c :: cs => titleCharStr c ++ cs.map downChar

/-- Flush the (reversed) token accumulator in front of `ts`, dropping empty
tokens exactly as the Python code's `[token for token in raw if token]`. -/
def flushTok (acc : List Char) (ts : List (List Char)) : List (List Char) :=
  if acc = [] then ts else acc.reverse :: ts

/-- Worker for `tokenize`: split on runs of separator characters. -/
def tokAux : List Char → List Char → List (List Char)
  | acc, [] => flushTok acc []
  | acc, c :: cs => if isSepChar c then flushTok acc (tokAux [] cs) else tokAux (c :: acc) cs

/-- `re.split(r"[+\s]+", text.strip())` followed by dropping empty tokens. -/
def tokenize (cs : List Char) : List (List Char) := tokAux [] cs

/-- `"+".join` on token lists. -/
def joinPlus : List (List Char) → List Char
  | [] => []
  | [t] => t
  | t :: ts => t ++ '+' :: joinPlus ts

/-- The alias `mapping` dictionary of `normalize_combo` (app.py lines 129-158),
keys and values as character lists. -/
def comboKeyMap : List (List Char × List Char) :=
  [("control".toList, "Ctrl".toList), ("ctrl".toList, "Ctrl".toList),
   ("alt".toList, "Alt".toList), ("shift".toList, "Shift".toList),
   ("win".toList, "Win".toList), ("meta".toList, "Win".toList),
   ("del".toList, "Del".toList), ("delete".toList, "Del".toList),
   ("tab".toList, "Tab".toList), ("esc".toList, "Esc".toList),
   ("escape".toList, "Esc".toList),
   ("setadireita".toList, "Right".toList), ("direita".toList, "Right".toList),
   ("right".toList, "Right".toList),
   ("setaesquerda".toList, "Left".toList), ("esquerda".toList, "Left".toList),
   ("left".toList, "Left".toList),
   ("setacima".toList, "Up".toList), ("cima".toList, "Up".toList),
   ("up".toList, "Up".toList),
   ("setabaixo".toList, "Down".toList), ("baixo".toList, "Down".toList),
   ("down".toList, "Down".toList),
   ("inicio".toList, "Home".toList), ("home".toList, "Home".toList),
   ("fim".toList, "End".toList), ("end".toList, "End".toList),
   ("windows".toList, "Win".toList)]

/-- First-match association lookup (Python dict keys are unique, so order is
irrelevant). -/
def lookupKey : List Char → List (List Char × List Char) → Option (List Char)
  | _, [] => none
  | k, q :: rest => if k = q.1 then some q.2 else lookupKey k rest

/-- One token of the `norm` list:
`mapping.get(token.lower(), token.upper() if len(token) == 1 else token.capitalize())`. -/
def normStep (t : List Char) : List Char :=
  match lookupKey (t.map downChar) comboKeyMap with
  | some v => v
  | none => if t.length = 1 then pyUpper t else pyCapitalize t

/-- The modifier list `["Ctrl", "Alt", "Shift", "Win"]` of `normalize_combo`. -/
def MODIFIER_KEYS : List (List Char) :=
  ["Ctrl".toList, "Alt".toList, "Shift".toList, "Win".toList]

/-- `normalize_combo` (app.py lines 124-166) on character lists. -/
def normalize_combo (s : List Char) : List Char :=
  let raw := tokenize s
  if raw = [] then []
  else
    let norm := raw.map normStep
    let modifiers := MODIFIER_KEYS.filter (fun m => decide (m ∈ norm))
    let rest := norm.filter (fun k => decide (k ∉ MODIFIER_KEYS))
    joinPlus (modifiers ++ rest)

/-- `normalize_combo` on Lean strings. -/
def normalizeComboStr (s : String) : String := String.mk (normalize_combo s.toList)

/-! ## Mission catalog (app.py lines 47-65) -/

/-- The `Mission` dataclass. -/
structure Mission where
  phase : String
  label : String
  realCombo : String
  safeCombo : String
  keys : List String
  xp : Nat
  taskType : String
deriving Repr, DecidableEq

/-- The `MISSIONS` catalog. -/
def MISSIONS : List Mission :=
  [⟨"Fase 1 - Texto", "Copiar texto da origem", "Ctrl+C", "Ctrl+C", ["Ctrl", "C"], 10, "copy"⟩,
   ⟨"Fase 1 - Texto", "Colar texto no destino", "Ctrl+V", "Ctrl+V", ["Ctrl", "V"], 10, "paste"⟩,
   ⟨"Fase 1 - Texto", "Selecionar todo o texto no destino", "Ctrl+A", "Ctrl+A", ["Ctrl", "A"], 12, "select_all"⟩,
   ⟨"Fase 1 - Texto", "Recortar texto selecionado no destino", "Ctrl+X", "Ctrl+X", ["Ctrl", "X"], 12, "cut"⟩,
   ⟨"Fase 1 - Texto", "Desfazer recorte no destino", "Ctrl+Z", "Ctrl+Z", ["Ctrl", "Z"], 12, "undo"⟩,
   ⟨"Fase 1 - Texto", "Colar sem formatacao", "Ctrl+Shift+V", "Ctrl+Shift+V", ["Ctrl", "Shift", "V"], 14, "paste_plain"⟩]

/-- Placeholder mission used to totalize the partial list indexing
`MISSIONS[st.session_state.mission_idx]` (which raises in Python when out of
range; all claims are settled at in-range indices). -/
def defaultMission : Mission := ⟨"", "", "", "", [], 0, ""⟩

/-- `expected_combo` (app.py line 184). -/
def expected_combo (mission : Mission) : String := mission.realCombo

/-- The `DANGEROUS_COMBOS` set (app.py lines 20-31), as a list. -/
def DANGEROUS_COMBOS : List String :=
  ["Ctrl+W", "Ctrl+T", "Ctrl+Shift+T", "Ctrl+R", "F5", "Ctrl+N", "Ctrl+L",
   "Alt+F4", "Alt+Tab", "Win+L"]

/-- `is_dangerous_combo` (app.py line 203). -/
def is_dangerous_combo (combo : String) : Bool := decide (combo ∈ DANGEROUS_COMBOS)

/-! ## Simulated environment (the simulator keys of `st.session_state`) -/

/-- The mutable simulated-desktop part of the session state. -/
structure SimEnv where
  clipboardVirtual : String
  sourceText : String
  sourceInitial : String
  destinationText : String
  editorBox : String
  finalBox : String
  undoStack : List String
  simTabs : Nat
  activeWindow : String
  showDesktop : Bool
  lockedScreen : Bool
  securityMenuOpen : Bool
  actionLog : String
  undoTarget : String
deriving Repr, DecidableEq

/-- `apply_simulation_effect` (app.py lines 285-327): the combo effect table. -/
def apply_simulation_effect (combo : String) (env : SimEnv) : SimEnv :=
  if combo = "Alt+Tab" then
    let aw := if env.activeWindow = "Editor" then "Navegador" else "Editor"
    { env with activeWindow := aw, showDesktop := false,
               actionLog := "Alt+Tab executado: foco trocado para " ++ aw ++ "." }
  else if combo = "Ctrl+T" then
    { env with simTabs := env.simTabs + 1,
               actionLog := "Ctrl+T executado: nova aba virtual aberta (" ++ toString (env.simTabs + 1) ++ ")." }
  else if combo = "Ctrl+W" then
    { env with simTabs := max 1 (env.simTabs - 1),
               actionLog := "Ctrl+W executado: aba virtual fechada (" ++ toString (max 1 (env.simTabs - 1)) ++ ")." }
  else if combo = "Win+D" then
    { env with showDesktop := true,
               actionLog := "Win+D executado: desktop virtual mostrado." }
  else if combo = "Win+L" then
    { env with lockedScreen := true,
               actionLog := "Win+L executado: tela virtual bloqueada." }
  else if combo = "Ctrl+Alt+Del" then
    { env with securityMenuOpen := true,
               actionLog := "Ctrl+Alt+Del executado: menu de seguranca virtual aberto." }
  else if combo = "Win+E" then
    { env with activeWindow := "Explorador",
               actionLog := "Win+E executado: explorador de arquivos virtual aberto." }
  else if combo = "Win+I" then
    { env with activeWindow := "Configuracoes",
               actionLog := "Win+I executado: configuracoes virtuais abertas." }
  else if combo = "Ctrl+Shift+Esc" then
    { env with activeWindow := "Gerenciador de Tarefas",
               actionLog := "Ctrl+Shift+Esc executado: gerenciador de tarefas virtual aberto." }
  else if combo = "Alt+F4" then
    { env with activeWindow := "Editor",
               actionLog := "Alt+F4 executado: janela ativa virtual fechada." }
  else if combo = "Win+Shift+S" then
    { env with actionLog := "Win+Shift+S executado: captura de area virtual registrada." }
  else if combo = "Ctrl+Shift+T" then
    { env with simTabs := env.simTabs + 1,
               actionLog := "Ctrl+Shift+T executado: aba virtual reaberta (" ++ toString (env.simTabs + 1) ++ ")." }
  else if combo ∈ ["Ctrl+L", "Ctrl+R", "F5", "Ctrl+S", "Ctrl+F", "Ctrl+A", "Ctrl+Y", "Ctrl+Shift+V"] then
    { env with actionLog := combo ++ " executado no simulador." }
  else if combo ∈ ["Win+Right", "Win+Left", "Win+Up", "Win+M", "Ctrl+Esc"] then
    { env with actionLog := combo ++ " executado: gerenciamento de janela/menu virtual atualizado." }
  else if combo ∈ ["Ctrl+Right", "Ctrl+Left", "Ctrl+Shift+Right", "Ctrl+Shift+Left", "Home", "End"] then
    { env with actionLog := combo ++ " executado: navegacao de texto virtual aplicada." }
  else env

/-- ASCII whitespace for Python `str.strip`. -/
def isStripChar (c : Char) : Bool :=
  c == ' ' || c == '\t' || c == '\n' || c == '\r' || c == '\x0b' || c == '\x0c'

/-- Python `str.strip()`: drop whitespace from both ends. -/
def pyStrip (s : String) : String :=
  String.mk (((s.toList.dropWhile isStripChar).reverse.dropWhile isStripChar).reverse)

/-- `validate_mission_by_result` (app.py lines 252-282).  The Python function
reads the global `st.session_state.source_initial`; that read is the explicit
last parameter `sourceInitialState`. -/
def validate_mission_by_result (mission : Mission)
    (sourceValue editorValue finalValue : String)
    (sourceInitialState : String) : Bool × String :=
  let srcNow := pyStrip sourceValue
  let editorNow := pyStrip editorValue
  let finalNow := pyStrip finalValue
  let srcInitial := pyStrip sourceInitialState
  if mission.taskType = "copy" then
    (srcNow == srcInitial, "Para validar, selecione na ORIGEM e pressione Ctrl+C.")
  else if mission.taskType = "paste" then
    (editorNow == srcInitial, "Para validar, cole o texto da origem na CAIXA DE TRABALHO com Ctrl+V.")
  else if mission.taskType = "select_all" then
    (true, "Use Ctrl+A na caixa de trabalho e clique em validar.")
  else if mission.taskType = "cut" then
    (editorNow == "", "Para validar, use Ctrl+A e Ctrl+X na caixa de trabalho para esvaziar o texto.")
  else if mission.taskType = "undo" then
    (true, "Use Ctrl+Z na caixa de trabalho e clique em validar.")
  else if mission.taskType = "paste_plain" then
    (finalNow == srcInitial, "Para validar, copie da origem e cole sem formatacao na CAIXA FINAL com Ctrl+Shift+V.")
  else
    (false, "Missao desconhecida.")

/-! ## Players and game state -/

/-- The per-player dict created by `init_players` (app.py lines 169-181).
`phaseHits` is the phase-hit dict as a total function with default 0 (the
Python code initialises keys "1".."5" to 0 and lazily creates others). -/
structure Player where
  id : Nat
  xp : Nat
  hits : Nat
  attempts : Nat
  errors : Nat
  phaseHits : String → Nat
  missionTimes : List Nat

/-- Placeholder player used to totalize list indexing. -/
def defaultPlayer : Player :=
  { id := 0, xp := 0, hits := 0, attempts := 0, errors := 0,
    phaseHits := fun _ => 0, missionTimes := [] }

/-- `init_players` (app.py lines 169-181). -/
def init_players (count : Nat) : List Player :=
  (List.range count).map fun idx =>
    { id := idx + 1, xp := 0, hits := 0, attempts := 0, errors := 0,
      phaseHits := fun _ => 0, missionTimes := [] }

/-- The game-relevant part of `st.session_state`.  `missionCtxIdx` and
`lastMissionIdx` are `Int` because the Python code uses `-1` as their
"unset" sentinel.  `datetime` timestamps are abstracted: transitions that
measure elapsed time take the measured seconds as an argument. -/
structure GState where
  stage : String
  playersCount : Nat
  players : List Player
  currentPlayer : Nat
  missionIdx : Nat
  totalXp : Nat
  feedback : String
  finishReason : String
  missionCtxIdx : Int
  lastMissionIdx : Int
  env : SimEnv

/-- The `init_state` defaults (app.py lines 85-121) restricted to the
embedded fields. -/
def freshState : GState :=
  { stage := "start", playersCount := 1, players := [], currentPlayer := 0,
    missionIdx := 0, totalXp := 0, feedback := "", finishReason := "",
    missionCtxIdx := -1, lastMissionIdx := -1,
    env := { clipboardVirtual := "",
             sourceText := "Texto de treino: copie este paragrafo com Ctrl+C e cole no bloco de destino usando Ctrl+V.",
             sourceInitial := "", destinationText := "", editorBox := "",
             finalBox := "", undoStack := [], simTabs := 1,
             activeWindow := "Editor", showDesktop := false,
             lockedScreen := false, securityMenuOpen := false,
             actionLog := "", undoTarget := "" } }

/-- `init_simulation_env` (app.py lines 211-226). -/
def init_simulation_env (g : GState) : GState :=
  { g with
    env := { clipboardVirtual := "",
             sourceText := "Texto de treino: copie este paragrafo com Ctrl+C e cole no bloco de destino usando Ctrl+V.",
             sourceInitial := "Texto base: pratique os comandos de edicao nesta atividade.",
             destinationText := "", editorBox := "", finalBox := "",
             undoStack := [], simTabs := 1, activeWindow := "Editor",
             showDesktop := false, lockedScreen := false,
             securityMenuOpen := false, actionLog := "Simulador iniciado.",
             undoTarget := "" },
    missionCtxIdx := -1 }

/-- The sample-text pool of `prepare_mission_context` (app.py lines 233-239). -/
def SAMPLES : List String :=
  ["A tecnologia move o mundo.",
   "Aprender atalhos aumenta a produtividade.",
   "Cada comando economiza segundos preciosos.",
   "Praticar diariamente gera autonomia digital.",
   "Copiar, colar e desfazer sao superpoderes basicos."]

/-- `prepare_mission_context` (app.py lines 229-249).  The `mission` and
`missionIdx` parameters mirror the unused Python parameters. -/
def prepare_mission_context (g : GState) (_mission : Mission) (_missionIdx : Nat) : GState :=
  if g.missionCtxIdx = (g.currentPlayer : Int) then g
  else
    let sample := SAMPLES.getD (g.currentPlayer % SAMPLES.length) ""
    let env := { g.env with
                 sourceText := sample
                 sourceInitial := sample
                 destinationText := ""
                 editorBox := ""
                 finalBox := ""
                 undoTarget := ""
                 actionLog := "Contexto carregado para o Jogador " ++ toString (g.currentPlayer + 1) ++ "." }
    { g with env := env, missionCtxIdx := (g.currentPlayer : Int) }

/-- `phase_number` (app.py lines 330-332): first digit following the word
`Fase` and at least one whitespace character, defaulting to "1" (the
behaviour of `PHASE_REGEX.search`). -/
def phase_number_chars : List Char → String
  | 'F' :: 'a' :: 's' :: 'e' :: c :: cs =>
      if c.isWhitespace then
        match cs.dropWhile (fun d => d.isWhitespace) with
        | d :: _ =>
            if d.isDigit then String.mk [d]
            else phase_number_chars ('a' :: 's' :: 'e' :: c :: cs)
        | [] => phase_number_chars ('a' :: 's' :: 'e' :: c :: cs)
      else phase_number_chars ('a' :: 's' :: 'e' :: c :: cs)
  | _ :: cs => phase_number_chars cs
  | [] => "1"

/-- `phase_number` on strings. -/
def phase_number (phaseText : String) : String := phase_number_chars phaseText.toList

/-- The `phase_hits` update of `register_mission_success`: create the key
with 0 if missing, then increment (with default-0 total functions this is a
pointwise increment). -/
def bumpPhase (f : String → Nat) (ph : String) : String → Nat :=
  fun k => if k = ph then f ph + 1 else f k

/-- `finish_game` (app.py lines 348-350). -/
def finish_game (g : GState) (reason : String) : GState :=
  { g with stage := "end", finishReason := reason }

/-- `register_mission_success` (app.py lines 353-382).  The Python `player`
argument is an alias of `st.session_state.players[current_player]`; here the
update is written back with `List.set`.  `delta` is the elapsed-seconds
measurement `(datetime.now() - mission_started_at).total_seconds()`. -/
def register_mission_success (g : GState) (mission : Mission) (delta : Nat) : GState :=
  let p0 := g.players.getD g.currentPlayer defaultPlayer
  let p := { p0 with
             hits := p0.hits + 1
             xp := p0.xp + mission.xp
             missionTimes := p0.missionTimes ++ [delta]
             phaseHits := bumpPhase p0.phaseHits (phase_number mission.phase) }
  let g := { g with
             players := g.players.set g.currentPlayer p
             totalXp := g.totalXp + mission.xp }
  if g.missionIdx + 1 ≥ MISSIONS.length then
    if 1 < g.playersCount ∧ g.currentPlayer < g.playersCount - 1 then
      { g with
        currentPlayer := g.currentPlayer + 1
        missionIdx := 0
        missionCtxIdx := -1
        lastMissionIdx := -1
        feedback := "Lista concluida pelo Jogador " ++ toString p.id ++
          "! TROCA DE PILOTO! Vez do Jogador " ++ toString (g.currentPlayer + 2) ++ "." }
    else
      { finish_game g "Todos os alunos da equipe concluíram a lista de comandos." with
        feedback := "Parabens! Atividade concluida por toda a equipe." }
  else
    { g with
      missionIdx := g.missionIdx + 1
      feedback := "Acerto critico! Missao concluida." }

/-- The "Iniciar Missao" button of `render_start` (app.py lines 655-671),
restricted to the embedded fields. -/
def start_game (g : GState) (playersCount : Nat) : GState :=
  let g := { g with playersCount := playersCount,
                    players := init_players playersCount,
                    currentPlayer := 0, missionIdx := 0, totalXp := 0,
                    feedback := "" }
  let g := init_simulation_env g
  { g with stage := "game" }

/-- The top of a `render_game` pass (app.py lines 675-683): update
`last_mission_idx` and run `prepare_mission_context`. -/
def render_pass (g : GState) : GState :=
  let g := if g.lastMissionIdx ≠ (g.missionIdx : Int) then
             { g with lastMissionIdx := (g.missionIdx : Int) } else g
  prepare_mission_context g (MISSIONS.getD g.missionIdx defaultMission) g.missionIdx

/-- The click handlers of `render_game` (app.py lines 735-774): increment the
current player's `attempts`, then dispatch on the task type exactly as the
button/form handlers do.  `delta` abstracts the mission timer reading. -/
def mission_click (g1 : GState) (delta : Nat) : GState :=
  let mission := MISSIONS.getD g1.missionIdx defaultMission
  let p0 := g1.players.getD g1.currentPlayer defaultPlayer
  let g := { g1 with players := g1.players.set g1.currentPlayer { p0 with attempts := p0.attempts + 1 } }
  if mission.taskType = "confirm" then
    let g := { g with env := apply_simulation_effect (expected_combo mission) g.env }
    register_mission_success g mission delta
  else if mission.taskType = "select_all" ∨ mission.taskType = "undo" then
    register_mission_success g mission delta
  else
    let r := validate_mission_by_result mission g.env.sourceInitial g.env.editorBox
               g.env.finalBox g.env.sourceInitial
    if r.1 then
      register_mission_success g mission delta
    else
      let p1 := g.players.getD g.currentPlayer defaultPlayer
      let g := { g with players := g.players.set g.currentPlayer { p1 with errors := p1.errors + 1 } }
      { g with feedback := "Ainda nao validou. " ++ r.2 }

/-- One `render_game` pass that ends in a click of the mission's validation
control (app.py lines 674-774): update `last_mission_idx`, run
`prepare_mission_context`, then handle the click. -/
def validate_click (g0 : GState) (delta : Nat) : GState :=
  mission_click (render_pass g0) delta

/-! ## The client-side shortcut guard (app.py lines 782-903) -/

/-- The guard globals stored on the hosting window:
`__cyber_expected_combo`, `__cyber_combo_ok`, `__cyber_require_combo`,
`__cyber_last_combo`. -/
structure GuardState where
  expectedCombo : String
  comboOk : Bool
  requireCombo : Bool
  lastCombo : String
deriving Repr, DecidableEq

/-- `isBlockedCombo` of the injected script (app.py lines 828-833). -/
def isBlockedCombo (combo : String) : Bool :=
  decide (combo ∈ ["Ctrl+W", "Ctrl+T", "Ctrl+Shift+T", "Ctrl+R", "Ctrl+N",
                   "Ctrl+L", "F5", "Ctrl+F4", "Alt+F4"])

/-- The keydown handler `__cyber_guard_handler` (app.py lines 841-855) on an
already-normalized combo string; the returned `Bool` is whether the event was
suppressed (`preventDefault` + `stopPropagation`). -/
def guard_keydown (g : GuardState) (combo : String) : GuardState × Bool :=
  let g := { g with lastCombo := combo }
  let g := if g.expectedCombo ≠ "" ∧ combo = g.expectedCombo then
             { g with comboOk := true } else g
  (g, isBlockedCombo combo)

/-- The click-time interceptor (app.py lines 866-889).  `isValidateButton`
abstracts the button-label test; the returned `Bool` is whether the click is
allowed through (false = cancelled with the inline warning). -/
def click_intercept (g : GuardState) (isValidateButton : Bool) : GuardState × Bool :=
  if g.requireCombo = false then (g, true)
  else if isValidateButton = false then (g, true)
  else if g.comboOk = false then (g, false)
  else ({ g with comboOk := false }, true)

/-- Re-arming on mission change (app.py lines 860-864). -/
def guard_rearm (g : GuardState) (expected : String) (require : Bool) : GuardState :=
  let g := if g.expectedCombo ≠ expected then
             { g with expectedCombo := expected, comboOk := false } else g
  { g with requireCombo := require }

/-! ## Derived runs and views used by the claims -/

/-- One mission success on the current mission (the `register_mission_success`
call of `render_game`, with the timer reading abstracted to 0). -/
def successStep (g : GState) : GState :=
  register_mission_success g (MISSIONS.getD g.missionIdx defaultMission) 0

/-- Iterated mission successes. -/
def runSuccesses : Nat → GState → GState
  | 0, g => g
  | n + 1, g => runSuccesses n (successStep g)

/-- The control-flow fields of the game state (proof device for the
round-robin argument). -/
structure CtrlView where
  stage : String
  playersCount : Nat
  currentPlayer : Nat
  missionIdx : Nat
deriving Repr, DecidableEq

/-- Project the control-flow fields. -/
def ctrlOf (g : GState) : CtrlView :=
  ⟨g.stage, g.playersCount, g.currentPlayer, g.missionIdx⟩

/-- The effect of `register_mission_success` on the control-flow fields. -/
def ctrlStep (c : CtrlView) : CtrlView :=
  if c.missionIdx + 1 ≥ MISSIONS.length then
    if 1 < c.playersCount ∧ c.currentPlayer < c.playersCount - 1 then
      { c with currentPlayer := c.currentPlayer + 1, missionIdx := 0 }
    else
      { c with stage := "end" }
  else
    { c with missionIdx := c.missionIdx + 1 }

/-- Iterated `ctrlStep`. -/
def runCtrl : Nat → CtrlView → CtrlView
  | 0, c => c
  | n + 1, c => runCtrl n (ctrlStep c)

/-- User-visible events between renders: typing into the working/final text
areas, and clicking the current mission's validation control (the latter is a
no-op unless the game stage is `game`, because `main` only calls
`render_game` then). -/
inductive GameEvent
  | editEditor (s : String)
  | editFinal (s : String)
  | validate (delta : Nat)

/-- Apply one event. -/
def stepEvent (g : GState) (e : GameEvent) : GState :=
  match e with
  | .editEditor s => { g with env := { g.env with editorBox := s } }
  | .editFinal s => { g with env := { g.env with finalBox := s } }
  | .validate d => if g.stage = "game" then validate_click g d else g

/-- Apply a sequence of events. -/
def runEvents (g : GState) (es : List GameEvent) : GState :=
  es.foldl stepEvent g

/-- A reachable 1-player game state on the first (copy) mission whose source
buffer `source_text` has been mutated away from the `source_initial`
snapshot. -/
def mutatedCopyState : GState :=
  let g := prepare_mission_context (start_game freshState 1) (MISSIONS.getD 0 defaultMission) 0
  { g with env := { g.env with sourceText := "TEXTO ALTERADO" } }

/-- A prepared 1-player game state on the paste mission with an empty working
buffer, so the result-based paste validation fails. -/
def pasteReadyState : GState :=
  { prepare_mission_context (start_game freshState 1) (MISSIONS.getD 0 defaultMission) 0 with
    missionIdx := 1 }

/-! ## Theorems -/

/-- Claim C1 (the code evaluated at the failing input).
`validate_mission_by_result` itself implements "copy succeeds iff the source
argument (trimmed) equals the snapshot" — the first conjunct — but
`render_game` (app.py line 764) passes `st.session_state.source_initial`
itself as that source argument, so the in-game validation call compares the
snapshot with itself: at `mutatedCopyState`, whose `sourceText` buffer
differs from the `sourceInitial` snapshot, the copy mission still validates
successfully (mission index advances to 1, a hit and no error is recorded),
contradicting the claim that mutating the source buffer forces failure. -/
theorem copy_validation_ignores_mutated_source :
    (∀ src editor final init,
        (validate_mission_by_result (MISSIONS.getD 0 defaultMission) src editor final init).1 = true
          ↔ pyStrip src = pyStrip init) ∧
    (MISSIONS.getD mutatedCopyState.missionIdx defaultMission).taskType = "copy" ∧
    mutatedCopyState.env.sourceText ≠ mutatedCopyState.env.sourceInitial ∧
    (validate_click mutatedCopyState 0).missionIdx = 1 ∧
    ((validate_click mutatedCopyState 0).players.getD 0 defaultPlayer).hits = 1 ∧
    ((validate_click mutatedCopyState 0).players.getD 0 defaultPlayer).errors = 0 := by
  refine ⟨fun src editor final init => ?_, by decide, by decide, by decide, by decide, by decide⟩
  show ((pyStrip src == pyStrip init : Bool),
        ("Para validar, selecione na ORIGEM e pressione Ctrl+C." : String)).1 = true
      ↔ pyStrip src = pyStrip init
  exact beq_iff_eq

/-- Claim C3 (counterexample): `Alt+Tab` belongs to the claimed dangerous set
(the Python `DANGEROUS_COMBOS` constant, which is exactly the set the claim
lists), yet the injected keydown handler does not suppress it. -/
theorem guard_keydown_lets_alt_tab_through :
    "Alt+Tab" ∈ DANGEROUS_COMBOS ∧
    (guard_keydown ⟨"Ctrl+C", false, true, ""⟩ "Alt+Tab").2 = false := by
  exact ⟨by decide, rfl⟩

/-- Claim C3 (amended): the keydown handler suppresses a combo iff it belongs
to the script's own blocked set `{Ctrl+W, Ctrl+T, Ctrl+Shift+T, Ctrl+R,
Ctrl+N, Ctrl+L, F5, Ctrl+F4, Alt+F4}` — which omits `Alt+Tab` and `Win+L`
from, and adds `Ctrl+F4` to, the `DANGEROUS_COMBOS` list — unconditionally
and regardless of the armed guard state. -/
theorem guard_keydown_suppresses_iff (g : GuardState) (combo : String) :
    (guard_keydown g combo).2 = true ↔
      combo ∈ ["Ctrl+W", "Ctrl+T", "Ctrl+Shift+T", "Ctrl+R", "Ctrl+N", "Ctrl+L",
               "F5", "Ctrl+F4", "Alt+F4"] := by
  show isBlockedCombo combo = true ↔ _
  simp [isBlockedCombo]

/-- Claim C4 (counterexample): the sample pool is indexed by the 0-based
player index, not by the 1-based player id: for the player with id 1 (index
0) the regenerated snapshot is `"A tecnologia move o mundo."`, not the
`"Aprender atalhos aumenta a produtividade."` the claim requires. -/
theorem prepare_context_first_player_sample :
    ((start_game freshState 1).players.getD 0 defaultPlayer).id = 1 ∧
    (prepare_mission_context (start_game freshState 1) (MISSIONS.getD 0 defaultMission) 0).env.sourceInitial
      = "A tecnologia move o mundo." ∧
    (prepare_mission_context (start_game freshState 1) (MISSIONS.getD 0 defaultMission) 0).env.sourceInitial
      ≠ "Aprender atalhos aumenta a produtividade." := by
  exact ⟨rfl, rfl, by decide⟩

/-- Claim C4 (amended): `prepare_mission_context` is idempotent (a second
call for the same current player changes nothing, and it is the identity
when the context cache already records the current player), and when it does
regenerate, both `sourceInitial` and `sourceText` are set from the sample
pool indexed by the current player's 0-based index modulo the pool size —
so the player with id 1 receives `"A tecnologia move o mundo."`. -/
theorem prepare_mission_context_spec (g : GState) (m : Mission) (i : Nat) :
    prepare_mission_context (prepare_mission_context g m i) m i
      = prepare_mission_context g m i ∧
    (g.missionCtxIdx = (g.currentPlayer : Int) → prepare_mission_context g m i = g) ∧
    (g.missionCtxIdx ≠ (g.currentPlayer : Int) →
      (prepare_mission_context g m i).env.sourceInitial
          = SAMPLES.getD (g.currentPlayer % SAMPLES.length) "" ∧
      (prepare_mission_context g m i).env.sourceText
          = SAMPLES.getD (g.currentPlayer % SAMPLES.length) "") := by
  refine ⟨?_, ?_, ?_⟩
  · unfold prepare_mission_context
    split
    · rfl
    · simp
  · intro h
    unfold prepare_mission_context
    simp [h]
  · intro h
    unfold prepare_mission_context
    simp [h]

/-- Claim C4 (witness): at the freshly started 1-player game the context
cache is unset, and the regenerated snapshot is the pool entry for index 0. -/
theorem prepare_mission_context_spec_witness :
    (start_game freshState 1).missionCtxIdx ≠ (((start_game freshState 1).currentPlayer : Nat) : Int) ∧
    (prepare_mission_context (start_game freshState 1) (MISSIONS.getD 0 defaultMission) 0).env.sourceInitial
      = SAMPLES.getD ((start_game freshState 1).currentPlayer % SAMPLES.length) "" :=
  ⟨by decide,
   ((prepare_mission_context_spec (start_game freshState 1) (MISSIONS.getD 0 defaultMission) 0).2.2
     (by decide)).1⟩

/-- Claim C5: whenever the click-time interceptor lets a validation click
through while `requireCombo` is armed, it resets `comboOk`, so an
immediately following validation click (with no new combo capture in
between) is cancelled: one capture never satisfies two validations. -/
theorem click_intercept_one_shot (g : GuardState)
    (hreq : g.requireCombo = true)
    (hallow : (click_intercept g true).2 = true) :
    (click_intercept g true).1.comboOk = false ∧
    (click_intercept (click_intercept g true).1 true).2 = false := by
  cases hco : g.comboOk with
  | false =>
      simp [click_intercept, hreq, hco] at hallow
  | true =>
      simp [click_intercept, hreq, hco]

/-- Claim C5 (witness): concrete armed guard state with a captured combo. -/
theorem click_intercept_one_shot_witness :
    (GuardState.mk "Ctrl+C" true true "Ctrl+C").requireCombo = true ∧
    (click_intercept (GuardState.mk "Ctrl+C" true true "Ctrl+C") true).2 = true ∧
    ((click_intercept (GuardState.mk "Ctrl+C" true true "Ctrl+C") true).1.comboOk = false ∧
     (click_intercept (click_intercept (GuardState.mk "Ctrl+C" true true "Ctrl+C") true).1 true).2 = false) :=
  ⟨rfl, rfl, click_intercept_one_shot _ rfl rfl⟩

/-- Claim C9: for every combo in the catch-all sets of
`apply_simulation_effect` (including `Win+Shift+S`, the window-management
combos and the text-navigation combos), the effect rewrites only the
`actionLog` field, with a descriptive line, and leaves every other simulated
environment field unchanged. -/
theorem apply_simulation_effect_log_only (combo : String) (env : SimEnv)
    (h : combo ∈ ["Ctrl+L", "Ctrl+R", "F5", "Ctrl+S", "Ctrl+F", "Ctrl+A", "Ctrl+Y",
                  "Ctrl+Shift+V", "Win+Shift+S", "Win+Right", "Win+Left", "Win+Up",
                  "Win+M", "Ctrl+Esc", "Ctrl+Right", "Ctrl+Left", "Ctrl+Shift+Right",
                  "Ctrl+Shift+Left", "Home", "End"]) :
    apply_simulation_effect combo env
      = { env with actionLog := (apply_simulation_effect combo env).actionLog } ∧
    (apply_simulation_effect combo env).actionLog ∈
      [combo ++ " executado no simulador.",
       combo ++ " executado: captura de area virtual registrada.",
       combo ++ " executado: gerenciamento de janela/menu virtual atualizado.",
       combo ++ " executado: navegacao de texto virtual aplicada."] := by
  fin_cases h <;>
    exact ⟨rfl, by first
      | exact List.Mem.head _
      | exact List.Mem.tail _ (List.Mem.head _)
      | exact List.Mem.tail _ (List.Mem.tail _ (List.Mem.head _))
      | exact List.Mem.tail _ (List.Mem.tail _ (List.Mem.tail _ (List.Mem.head _)))⟩

/-- Claim C9 (witness): the `Ctrl+L` catch-all effect at the initial
environment. -/
theorem apply_simulation_effect_log_only_witness :
    "Ctrl+L" ∈ ["Ctrl+L", "Ctrl+R", "F5", "Ctrl+S", "Ctrl+F", "Ctrl+A", "Ctrl+Y",
                "Ctrl+Shift+V", "Win+Shift+S", "Win+Right", "Win+Left", "Win+Up",
                "Win+M", "Ctrl+Esc", "Ctrl+Right", "Ctrl+Left", "Ctrl+Shift+Right",
                "Ctrl+Shift+Left", "Home", "End"] ∧
    apply_simulation_effect "Ctrl+L" freshState.env
      = { freshState.env with actionLog := (apply_simulation_effect "Ctrl+L" freshState.env).actionLog } ∧
    (apply_simulation_effect "Ctrl+L" freshState.env).actionLog ∈
      ["Ctrl+L" ++ " executado no simulador.",
       "Ctrl+L" ++ " executado: captura de area virtual registrada.",
       "Ctrl+L" ++ " executado: gerenciamento de janela/menu virtual atualizado.",
       "Ctrl+L" ++ " executado: navegacao de texto virtual aplicada."] :=
  ⟨by decide, (apply_simulation_effect_log_only "Ctrl+L" freshState.env (by decide)).1,
   (apply_simulation_effect_log_only "Ctrl+L" freshState.env (by decide)).2⟩

/-- `register_mission_success` acts on the control-flow fields exactly as
`ctrlStep` (the player-stat updates do not feed back into the branch). -/
theorem ctrlOf_register (g : GState) (m : Mission) (d : Nat) :
    ctrlOf (register_mission_success g m d) = ctrlStep (ctrlOf g) := by
  by_cases h1 : g.missionIdx + 1 ≥ MISSIONS.length
  · by_cases h2 : 1 < g.playersCount ∧ g.currentPlayer < g.playersCount - 1
    · simp [register_mission_success, ctrlStep, ctrlOf, h1, h2]
    · simp [register_mission_success, ctrlStep, ctrlOf, finish_game, h1, h2]
  · simp [register_mission_success, ctrlStep, ctrlOf, h1]

/-- Control-flow view of one success step. -/
theorem ctrlOf_successStep (g : GState) : ctrlOf (successStep g) = ctrlStep (ctrlOf g) :=
  ctrlOf_register g _ 0

/-- Control-flow view of an iterated success run. -/
theorem ctrlOf_runSuccesses (n : Nat) (g : GState) :
    ctrlOf (runSuccesses n g) = runCtrl n (ctrlOf g) := by
  induction n generalizing g with
  | zero => rfl
  | succ n ih =>
      show ctrlOf (runSuccesses n (successStep g)) = _
      rw [ih, ctrlOf_successStep]
      rfl

/-- `runCtrl` splits over addition. -/
theorem runCtrl_add (a b : Nat) (c : CtrlView) :
    runCtrl (a + b) c = runCtrl b (runCtrl a c) := by
  induction a generalizing c with
  | zero => rw [Nat.zero_add]; rfl
  | succ a ih =>
      have h : a + 1 + b = (a + b) + 1 := by omega
      rw [h]
      show runCtrl (a + b) (ctrlStep c) = _
      rw [ih]
      rfl

/-- One step strictly below the last mission index just advances the index. -/
theorem ctrlStep_mid (N k j : Nat) (hj : j + 1 < MISSIONS.length) :
    ctrlStep ⟨"game", N, k, j⟩ = ⟨"game", N, k, j + 1⟩ := by
  dsimp only [ctrlStep]
  rw [if_neg (by omega)]

/-- One full catalog pass either rotates to the next player or ends the game. -/
theorem runCtrl_pass (N k : Nat) :
    runCtrl MISSIONS.length ⟨"game", N, k, 0⟩
      = if 1 < N ∧ k < N - 1 then ⟨"game", N, k + 1, 0⟩ else ⟨"end", N, k, 5⟩ := by
  have hlen : MISSIONS.length = 6 := rfl
  show runCtrl 6 ⟨"game", N, k, 0⟩ = _
  simp only [runCtrl]
  rw [ctrlStep_mid N k 0 (by omega), ctrlStep_mid N k 1 (by omega),
      ctrlStep_mid N k 2 (by omega), ctrlStep_mid N k 3 (by omega),
      ctrlStep_mid N k 4 (by omega)]
  dsimp only [ctrlStep]
  rw [if_pos (by omega)]

/-- After `k` full passes (`k < N`) the control state is player `k`,
mission 0, stage `game`. -/
theorem runCtrl_cycle (N k : Nat) (hk : k < N) :
    runCtrl (k * MISSIONS.length) (⟨"game", N, 0, 0⟩ : CtrlView) = ⟨"game", N, k, 0⟩ := by
  induction k with
  | zero => rfl
  | succ k ih =>
      have h1 : (k + 1) * MISSIONS.length = k * MISSIONS.length + MISSIONS.length :=
        Nat.succ_mul k MISSIONS.length
      rw [h1, runCtrl_add, ih (by omega), runCtrl_pass, if_pos ⟨by omega, by omega⟩]

/-- After all `N` passes the stage is `end`. -/
theorem runCtrl_all (N : Nat) (h : 1 ≤ N) :
    (runCtrl (N * MISSIONS.length) (⟨"game", N, 0, 0⟩ : CtrlView)).stage = "end" := by
  obtain ⟨n, rfl⟩ : ∃ n, N = n + 1 := ⟨N - 1, by omega⟩
  rw [Nat.succ_mul, runCtrl_add, runCtrl_cycle (n + 1) n (by omega), runCtrl_pass,
      if_neg (by omega)]

/-- Claim C2: on each mission success, `register_mission_success` advances
`missionIdx` by exactly 1 when the completed mission is not the last of the
catalog; on the last mission it rotates `currentPlayer` to the next index,
resets `missionIdx` to 0 and the mission-context cache when the current
player is not the final one, and otherwise sets the stage to `end`; hence
with `count` players, `currentPlayer` takes the values `0, 1, ..., count-1`
in order — one full catalog pass each — before the stage becomes `end`. -/
theorem register_mission_success_spec (g : GState) (m : Mission) (d : Nat)
    (hcp : g.currentPlayer < g.playersCount)
    (hmi : g.missionIdx < MISSIONS.length) :
    (g.missionIdx + 1 < MISSIONS.length →
       (register_mission_success g m d).missionIdx = g.missionIdx + 1 ∧
       (register_mission_success g m d).currentPlayer = g.currentPlayer ∧
       (register_mission_success g m d).stage = g.stage) ∧
    (g.missionIdx + 1 = MISSIONS.length → g.currentPlayer + 1 < g.playersCount →
       (register_mission_success g m d).currentPlayer = g.currentPlayer + 1 ∧
       (register_mission_success g m d).missionIdx = 0 ∧
       (register_mission_success g m d).missionCtxIdx = -1 ∧
       (register_mission_success g m d).lastMissionIdx = -1 ∧
       (register_mission_success g m d).stage = g.stage) ∧
    (g.missionIdx + 1 = MISSIONS.length → g.currentPlayer + 1 = g.playersCount →
       (register_mission_success g m d).stage = "end") ∧
    (∀ count : Nat, 1 ≤ count →
       (∀ k : Nat, k < count →
          (runSuccesses (k * MISSIONS.length) (start_game freshState count)).stage = "game" ∧
          (runSuccesses (k * MISSIONS.length) (start_game freshState count)).currentPlayer = k ∧
          (runSuccesses (k * MISSIONS.length) (start_game freshState count)).missionIdx = 0) ∧
       (runSuccesses (count * MISSIONS.length) (start_game freshState count)).stage = "end") := by
  refine ⟨?_, ?_, ?_, ?_⟩
  · intro h
    simp [register_mission_success, if_neg (show ¬ g.missionIdx + 1 ≥ MISSIONS.length by omega)]
  · intro h hrot
    simp [register_mission_success, if_pos (show g.missionIdx + 1 ≥ MISSIONS.length by omega),
          if_pos (show 1 < g.playersCount ∧ g.currentPlayer < g.playersCount - 1 by omega)]
  · intro h hlast
    simp [register_mission_success, finish_game,
          if_pos (show g.missionIdx + 1 ≥ MISSIONS.length by omega),
          if_neg (show ¬ (1 < g.playersCount ∧ g.currentPlayer < g.playersCount - 1) by omega)]
  · intro count hcount
    have hstart : ctrlOf (start_game freshState count) = ⟨"game", count, 0, 0⟩ := rfl
    constructor
    · intro k hk
      have hrun := ctrlOf_runSuccesses (k * MISSIONS.length) (start_game freshState count)
      rw [hstart, runCtrl_cycle count k hk] at hrun
      exact ⟨congrArg CtrlView.stage hrun, congrArg CtrlView.currentPlayer hrun,
             congrArg CtrlView.missionIdx hrun⟩
    · have hrun := ctrlOf_runSuccesses (count * MISSIONS.length) (start_game freshState count)
      rw [hstart] at hrun
      have := congrArg CtrlView.stage hrun
      rw [runCtrl_all count hcount] at this
      exact this

/-- Claim C2 (witness): a fresh 2-player game advances mission 0 to 1 on the
first success, and reaches stage `end` after both full passes. -/
theorem register_mission_success_spec_witness :
    (start_game freshState 2).currentPlayer < (start_game freshState 2).playersCount ∧
    (start_game freshState 2).missionIdx < MISSIONS.length ∧
    (start_game freshState 2).missionIdx + 1 < MISSIONS.length ∧
    (register_mission_success (start_game freshState 2) (MISSIONS.getD 0 defaultMission) 0).missionIdx
      = (start_game freshState 2).missionIdx + 1 ∧
    (runSuccesses (2 * MISSIONS.length) (start_game freshState 2)).stage = "end" :=
  ⟨by decide, by decide, by decide,
   ((register_mission_success_spec (start_game freshState 2) (MISSIONS.getD 0 defaultMission) 0
      (by decide) (by decide)).1 (by decide)).1,
   ((register_mission_success_spec (start_game freshState 2) (MISSIONS.getD 0 defaultMission) 0
      (by decide) (by decide)).2.2.2 2 (by decide)).2⟩

/-- Claim C8: `currentPlayer` is in range and `missionIdx` is at most the
catalog length after game initialization, and both bounds (together with the
players-list length agreeing with the player count) are preserved by every
mission-success transition. -/
theorem game_state_bounds (g : GState) (m : Mission) (d count : Nat)
    (hcount : 1 ≤ count)
    (hlen : g.players.length = g.playersCount)
    (hcp : g.currentPlayer < g.players.length)
    (hmi : g.missionIdx ≤ MISSIONS.length) :
    ((start_game freshState count).currentPlayer < (start_game freshState count).players.length ∧
     (start_game freshState count).missionIdx ≤ MISSIONS.length) ∧
    ((register_mission_success g m d).players.length = (register_mission_success g m d).playersCount ∧
     (register_mission_success g m d).currentPlayer < (register_mission_success g m d).players.length ∧
     (register_mission_success g m d).missionIdx ≤ MISSIONS.length) := by
  constructor
  · constructor
    · show 0 < (init_players count).length
      simp [init_players]
      omega
    · exact Nat.zero_le _
  · by_cases h1 : g.missionIdx + 1 ≥ MISSIONS.length
    · by_cases h2 : 1 < g.playersCount ∧ g.currentPlayer < g.playersCount - 1
      · simp only [register_mission_success, if_pos h1, if_pos h2]
        refine ⟨?_, ?_, Nat.zero_le _⟩
        · rw [List.length_set]; exact hlen
        · rw [List.length_set]; omega
      · simp only [register_mission_success, finish_game, if_pos h1, if_neg h2]
        refine ⟨?_, ?_, hmi⟩
        · rw [List.length_set]; exact hlen
        · rw [List.length_set]; omega
    · simp only [register_mission_success, if_neg h1]
      refine ⟨?_, ?_, by omega⟩
      · rw [List.length_set]; exact hlen
      · rw [List.length_set]; omega

/-- Claim C8 (witness): the bounds at a fresh 2-player game and after one
success there. -/
theorem game_state_bounds_witness :
    1 ≤ 2 ∧
    (start_game freshState 2).players.length = (start_game freshState 2).playersCount ∧
    (start_game freshState 2).currentPlayer < (start_game freshState 2).players.length ∧
    (start_game freshState 2).missionIdx ≤ MISSIONS.length ∧
    ((register_mission_success (start_game freshState 2) (MISSIONS.getD 0 defaultMission) 0).currentPlayer
       < (register_mission_success (start_game freshState 2) (MISSIONS.getD 0 defaultMission) 0).players.length ∧
     (register_mission_success (start_game freshState 2) (MISSIONS.getD 0 defaultMission) 0).missionIdx
       ≤ MISSIONS.length) :=
  ⟨by decide, by decide, by decide, by decide,
   (game_state_bounds (start_game freshState 2) (MISSIONS.getD 0 defaultMission) 0 2
      (by decide) (by decide) (by decide) (by decide)).2.2.1,
   (game_state_bounds (start_game freshState 2) (MISSIONS.getD 0 defaultMission) 0 2
      (by decide) (by decide) (by decide) (by decide)).2.2.2⟩

/-- `getD` after `set` at the same in-range index. -/
theorem getD_set_self {α : Type} (l : List α) (i : Nat) (x d : α) (h : i < l.length) :
    (l.set i x).getD i d = x := by
  induction l generalizing i with
  | nil => simp at h
  | cons a l ih =>
      cases i with
      | zero => rfl
      | succ i => exact ih i (by simpa using h)

/-- In every branch, `register_mission_success` rewrites the players list by
updating the current player's stats in place. -/
theorem register_players_eq (g : GState) (m : Mission) (d : Nat) :
    (register_mission_success g m d).players
      = g.players.set g.currentPlayer
          (let p0 := g.players.getD g.currentPlayer defaultPlayer
           { p0 with hits := p0.hits + 1, xp := p0.xp + m.xp,
                     missionTimes := p0.missionTimes ++ [d],
                     phaseHits := bumpPhase p0.phaseHits (phase_number m.phase) }) := by
  unfold register_mission_success
  dsimp only
  split_ifs <;> rfl

/-- `render_pass` does not touch the players, the turn, or the mission
index. -/
theorem render_pass_fields (g : GState) :
    (render_pass g).players = g.players ∧
    (render_pass g).currentPlayer = g.currentPlayer ∧
    (render_pass g).missionIdx = g.missionIdx := by
  unfold render_pass
  dsimp only
  split <;> (unfold prepare_mission_context; dsimp only; split <;> simp)

/-- Claim C6: every validation click increments the current player's
`attempts` by exactly 1 regardless of outcome; for the result-based task
types, a failed validation additionally increments `errors` by exactly 1,
leaves `missionIdx` unchanged and surfaces the task-specific hint in the
feedback, while a successful one leaves `errors` unchanged. -/
theorem result_validation_counters (g : GState) (d : Nat)
    (hcp : g.currentPlayer < g.players.length) :
    (((mission_click g d).players.getD g.currentPlayer defaultPlayer).attempts
       = (g.players.getD g.currentPlayer defaultPlayer).attempts + 1) ∧
    ((MISSIONS.getD g.missionIdx defaultMission).taskType
        ∈ (["copy", "paste", "cut", "paste_plain"] : List String) →
      ((validate_mission_by_result (MISSIONS.getD g.missionIdx defaultMission)
           g.env.sourceInitial g.env.editorBox g.env.finalBox g.env.sourceInitial).1 = false →
         ((mission_click g d).players.getD g.currentPlayer defaultPlayer).errors
             = (g.players.getD g.currentPlayer defaultPlayer).errors + 1 ∧
         (mission_click g d).missionIdx = g.missionIdx ∧
         (mission_click g d).feedback
             = "Ainda nao validou. " ++
               (validate_mission_by_result (MISSIONS.getD g.missionIdx defaultMission)
                 g.env.sourceInitial g.env.editorBox g.env.finalBox g.env.sourceInitial).2) ∧
      ((validate_mission_by_result (MISSIONS.getD g.missionIdx defaultMission)
           g.env.sourceInitial g.env.editorBox g.env.finalBox g.env.sourceInitial).1 = true →
         ((mission_click g d).players.getD g.currentPlayer defaultPlayer).errors
             = (g.players.getD g.currentPlayer defaultPlayer).errors)) := by
  have hlen1 : ∀ x : Player, g.currentPlayer < (g.players.set g.currentPlayer x).length := by
    intro x
    rw [List.length_set]
    exact hcp
  constructor
  · simp only [mission_click]
    split_ifs with h1 h2 h3 <;>
      first
      | (rw [register_players_eq]
         dsimp only
         rw [getD_set_self _ _ _ _ (hlen1 _)]
         dsimp only
         rw [getD_set_self _ _ _ _ hcp])
      | (dsimp only
         rw [getD_set_self _ _ _ _ (hlen1 _)]
         dsimp only
         rw [getD_set_self _ _ _ _ hcp])
  · intro hmem
    simp only [List.mem_cons, List.mem_singleton, List.not_mem_nil, or_false] at hmem
    have hnc : ¬ (MISSIONS.getD g.missionIdx defaultMission).taskType = "confirm" := by
      rcases hmem with h | h | h | h <;> rw [h] <;> decide
    have hns : ¬ ((MISSIONS.getD g.missionIdx defaultMission).taskType = "select_all" ∨
                  (MISSIONS.getD g.missionIdx defaultMission).taskType = "undo") := by
      rcases hmem with h | h | h | h <;> rw [h] <;> decide
    constructor
    · intro hfail
      simp only [mission_click]
      rw [if_neg hnc, if_neg hns, if_neg (by rw [hfail]; decide)]
      refine ⟨?_, ?_, ?_⟩
      · dsimp only
        rw [getD_set_self _ _ _ _ (hlen1 _)]
        dsimp only
        rw [getD_set_self _ _ _ _ hcp]
      · dsimp only
      · dsimp only
    · intro hok
      simp only [mission_click]
      rw [if_neg hnc, if_neg hns, if_pos hok, register_players_eq]
      dsimp only
      rw [getD_set_self _ _ _ _ (hlen1 _)]
      dsimp only
      rw [getD_set_self _ _ _ _ hcp]

/-- Claim C6 (witness): a failed paste validation at the prepared 1-player
game (empty working buffer, non-empty snapshot) counts one attempt and one
error and does not advance the mission. -/
theorem result_validation_counters_witness :
    pasteReadyState.currentPlayer < pasteReadyState.players.length ∧
    (MISSIONS.getD pasteReadyState.missionIdx defaultMission).taskType
        ∈ (["copy", "paste", "cut", "paste_plain"] : List String) ∧
    (validate_mission_by_result (MISSIONS.getD pasteReadyState.missionIdx defaultMission)
        pasteReadyState.env.sourceInitial pasteReadyState.env.editorBox
        pasteReadyState.env.finalBox pasteReadyState.env.sourceInitial).1 = false ∧
    (((mission_click pasteReadyState 0).players.getD pasteReadyState.currentPlayer defaultPlayer).attempts
       = (pasteReadyState.players.getD pasteReadyState.currentPlayer defaultPlayer).attempts + 1) ∧
    ((mission_click pasteReadyState 0).players.getD pasteReadyState.currentPlayer defaultPlayer).errors
       = (pasteReadyState.players.getD pasteReadyState.currentPlayer defaultPlayer).errors + 1 ∧
    (mission_click pasteReadyState 0).missionIdx = pasteReadyState.missionIdx :=
  ⟨by decide, by decide, by decide,
   (result_validation_counters pasteReadyState 0 (by decide)).1,
   (((result_validation_counters pasteReadyState 0 (by decide)).2 (by decide)).1 (by decide)).1,
   (((result_validation_counters pasteReadyState 0 (by decide)).2 (by decide)).1 (by decide)).2.1⟩

/-- The player found at any index of a list satisfying the hits-vs-attempts
invariant satisfies it as well (the fallback `defaultPlayer` has 0/0). -/
theorem getD_default_prop (l : List Player) (i : Nat)
    (hinv : ∀ p ∈ l, p.hits ≤ p.attempts) :
    (l.getD i defaultPlayer).hits ≤ (l.getD i defaultPlayer).attempts := by
  induction l generalizing i with
  | nil => cases i <;> exact Nat.le_refl 0
  | cons a l ih =>
      cases i with
      | zero => exact hinv a (List.mem_cons_self a l)
      | succ i => exact ih i (fun p hp => hinv p (List.mem_cons_of_mem a hp))

/-- Every validation click preserves the hits-vs-attempts invariant. -/
theorem mission_click_inv (g : GState) (d : Nat)
    (hinv : ∀ p ∈ g.players, p.hits ≤ p.attempts) :
    ∀ q ∈ (mission_click g d).players, q.hits ≤ q.attempts := by
  by_cases hr : g.currentPlayer < g.players.length
  · have hp0 := getD_default_prop g.players g.currentPlayer hinv
    simp only [mission_click]
    split_ifs with h1 h2 h3 <;>
      (try rw [register_players_eq]) <;>
      dsimp only <;>
      rw [getD_set_self _ _ _ _ hr] <;>
      intro q hq <;>
      (rcases List.mem_or_eq_of_mem_set hq with hq1 | rfl
       · rcases List.mem_or_eq_of_mem_set hq1 with hq2 | rfl
         · exact hinv q hq2
         · dsimp only; omega
       · dsimp only; omega)
  · have hset : ∀ x : Player, g.players.set g.currentPlayer x = g.players := by
      intro x
      exact List.set_eq_of_length_le (by omega)
    simp only [mission_click]
    split_ifs with h1 h2 h3 <;>
      (try rw [register_players_eq]) <;>
      dsimp only <;>
      rw [hset, hset] <;>
      exact hinv

/-- Every user event preserves the hits-vs-attempts invariant. -/
theorem stepEvent_inv (g : GState) (e : GameEvent)
    (hinv : ∀ p ∈ g.players, p.hits ≤ p.attempts) :
    ∀ q ∈ (stepEvent g e).players, q.hits ≤ q.attempts := by
  cases e with
  | editEditor s => exact hinv
  | editFinal s => exact hinv
  | validate d =>
      dsimp only [stepEvent]
      split
      · show ∀ q ∈ (mission_click (render_pass g) d).players, q.hits ≤ q.attempts
        apply mission_click_inv
        rw [(render_pass_fields g).1]
        exact hinv
      · exact hinv

/-- Event runs preserve the hits-vs-attempts invariant. -/
theorem runEvents_inv (es : List GameEvent) (g : GState)
    (hinv : ∀ p ∈ g.players, p.hits ≤ p.attempts) :
    ∀ q ∈ (runEvents g es).players, q.hits ≤ q.attempts := by
  induction es generalizing g with
  | nil => exact hinv
  | cons e es ih => exact ih (stepEvent g e) (stepEvent_inv g e hinv)

/-- At game start every player has 0 hits and 0 attempts. -/
theorem init_players_inv (n : Nat) :
    ∀ p ∈ init_players n, p.hits ≤ p.attempts := by
  intro p hp
  rw [init_players, List.mem_map] at hp
  obtain ⟨i, _, rfl⟩ := hp
  exact Nat.le_refl 0

/-- Claim C7: for every player and after every sequence of user events
(text-area edits and validation clicks, the latter registering mission
successes when validation passes) starting from a fresh game,
`0 ≤ hits ≤ attempts` holds — hits are only incremented inside a successful
validation whose attempt was already counted. -/
theorem hits_le_attempts_invariant (count : Nat) (es : List GameEvent) (i : Nat) :
    0 ≤ ((runEvents (start_game freshState count) es).players.getD i defaultPlayer).hits ∧
    ((runEvents (start_game freshState count) es).players.getD i defaultPlayer).hits
      ≤ ((runEvents (start_game freshState count) es).players.getD i defaultPlayer).attempts := by
  refine ⟨Nat.zero_le _, ?_⟩
  exact getD_default_prop _ i (runEvents_inv es (start_game freshState count) (init_players_inv count))

/-- ASCII upper-casing is idempotent. -/
theorem upChar_idem (c : Char) : upChar (upChar c) = upChar c := by
  have htab : ∀ p ∈ asciiCase, upChar p.2 = p.2 := by decide
  cases h : asciiCase.find? (fun q => q.1 == c) with
  | none =>
      have h1 : upChar c = c := by unfold upChar; rw [h]
      rw [h1]
      exact h1
  | some p =>
      have h1 : upChar c = p.2 := by unfold upChar; rw [h]
      rw [h1, htab p (List.mem_of_find?_eq_some h)]

/-- ASCII lower-casing is idempotent. -/
theorem downChar_idem (c : Char) : downChar (downChar c) = downChar c := by
  have htab : ∀ p ∈ asciiCase, downChar p.1 = p.1 := by decide
  cases h : asciiCase.find? (fun q => q.2 == c) with
  | none =>
      have h1 : downChar c = c := by unfold downChar; rw [h]
      rw [h1]
      exact h1
  | some p =>
      have h1 : downChar c = p.1 := by unfold downChar; rw [h]
      rw [h1, htab p (List.mem_of_find?_eq_some h)]

/-- Lower-casing after upper-casing is plain lower-casing. -/
theorem downChar_upChar (c : Char) : downChar (upChar c) = downChar c := by
  have htab : ∀ p ∈ asciiCase, downChar p.2 = p.1 := by decide
  have htab2 : ∀ p ∈ asciiCase, downChar p.1 = p.1 := by decide
  cases h : asciiCase.find? (fun q => q.1 == c) with
  | none =>
      have h1 : upChar c = c := by unfold upChar; rw [h]
      rw [h1]
  | some p =>
      have hm := List.mem_of_find?_eq_some h
      have hc : p.1 = c := by simpa using List.find?_some h
      have h1 : upChar c = p.2 := by unfold upChar; rw [h]
      rw [h1, htab p hm, ← hc, htab2 p hm]

/-- Upper-casing preserves non-separator characters. -/
theorem isSepChar_upChar (c : Char) (h : isSepChar c = false) :
    isSepChar (upChar c) = false := by
  have htab : ∀ p ∈ asciiCase, isSepChar p.2 = false := by decide
  cases hf : asciiCase.find? (fun q => q.1 == c) with
  | none =>
      have h1 : upChar c = c := by unfold upChar; rw [hf]
      rw [h1]; exact h
  | some p =>
      have h1 : upChar c = p.2 := by unfold upChar; rw [hf]
      rw [h1]; exact htab p (List.mem_of_find?_eq_some hf)

/-- Lower-casing preserves non-separator characters. -/
theorem isSepChar_downChar (c : Char) (h : isSepChar c = false) :
    isSepChar (downChar c) = false := by
  have htab : ∀ p ∈ asciiCase, isSepChar p.1 = false := by decide
  cases hf : asciiCase.find? (fun q => q.2 == c) with
  | none =>
      have h1 : downChar c = c := by unfold downChar; rw [hf]
      rw [h1]; exact h
  | some p =>
      have h1 : downChar c = p.1 := by unfold downChar; rw [hf]
      rw [h1]; exact htab p (List.mem_of_find?_eq_some hf)

/-- A successful lookup comes from an entry of the map. -/
theorem lookupKey_mem {k v : List Char} :
    ∀ m : List (List Char × List Char), lookupKey k m = some v →
      ∃ p, p ∈ m ∧ p.1 = k ∧ p.2 = v := by
  intro m
  induction m with
  | nil => intro h; simp [lookupKey] at h
  | cons q m ih =>
      intro h
      rw [lookupKey] at h
      split_ifs at h with he
      · exact ⟨q, List.mem_cons_self q m, he.symm, (Option.some.injEq _ _).mp h⟩
      · obtain ⟨p, hp, h1, h2⟩ := ih h
        exact ⟨p, List.mem_cons_of_mem q hp, h1, h2⟩

/-- Every key of the alias map has at least two characters. -/
theorem comboKeyMap_keys_long : ∀ p ∈ comboKeyMap, 2 ≤ p.1.length := by decide

/-- Every value of the alias map is a fixed point of `normStep`, non-empty,
and separator-free. -/
theorem comboKeyMap_values :
    ∀ p ∈ comboKeyMap, normStep p.2 = p.2 ∧ p.2 ≠ [] ∧ ∀ c ∈ p.2, isSepChar c = false := by
  decide

/-- Lookups of one-character keys always miss. -/
theorem lookupKey_none_of_short (k : List Char) (h : k.length ≤ 1) :
    lookupKey k comboKeyMap = none := by
  cases hf : lookupKey k comboKeyMap with
  | none => rfl
  | some v =>
      obtain ⟨p, hp, h1, -⟩ := lookupKey_mem comboKeyMap hf
      have := comboKeyMap_keys_long p hp
      rw [h1] at this
      omega

/-- Upper-casing keeps ASCII characters in ASCII. -/
theorem upChar_ascii (c : Char) (h : c.toNat < 128) : (upChar c).toNat < 128 := by
  have htab : ∀ p ∈ asciiCase, (p.2).toNat < 128 := by decide
  cases hf : asciiCase.find? (fun q => q.1 == c) with
  | none =>
      have h1 : upChar c = c := by unfold upChar; rw [hf]
      rw [h1]; exact h
  | some p =>
      have h1 : upChar c = p.2 := by unfold upChar; rw [hf]
      rw [h1]; exact htab p (List.mem_of_find?_eq_some hf)

/-- Lower-casing keeps ASCII characters in ASCII. -/
theorem downChar_ascii (c : Char) (h : c.toNat < 128) : (downChar c).toNat < 128 := by
  have htab : ∀ p ∈ asciiCase, (p.1).toNat < 128 := by decide
  cases hf : asciiCase.find? (fun q => q.2 == c) with
  | none =>
      have h1 : downChar c = c := by unfold downChar; rw [hf]
      rw [h1]; exact h
  | some p =>
      have h1 : downChar c = p.1 := by unfold downChar; rw [hf]
      rw [h1]; exact htab p (List.mem_of_find?_eq_some hf)

/-- ASCII characters are not the expanding `ß` (code point 223). -/
theorem ne_sharp_of_ascii (c : Char) (h : c.toNat < 128) : c ≠ 'ß' := by
  intro he
  rw [he] at h
  exact absurd h (by decide)

/-- Away from `ß`, `upCharStr` is the one-character upper-case. -/
theorem upCharStr_of_ne (c : Char) (h : c ≠ 'ß') : upCharStr c = [upChar c] := by
  unfold upCharStr
  rw [if_neg h]

/-- Away from `ß`, `titleCharStr` is the one-character upper-case. -/
theorem titleCharStr_of_ne (c : Char) (h : c ≠ 'ß') : titleCharStr c = [upChar c] := by
  unfold titleCharStr
  rw [if_neg h]

/-- `upCharStr` never produces the empty string. -/
theorem upCharStr_ne_nil (c : Char) : upCharStr c ≠ [] := by
  unfold upCharStr
  split_ifs <;> simp

/-- `titleCharStr` never produces the empty string. -/
theorem titleCharStr_ne_nil (c : Char) : titleCharStr c ≠ [] := by
  unfold titleCharStr
  split_ifs <;> simp

/-- `upCharStr` output is separator-free for separator-free input. -/
theorem isSepChar_upCharStr (c : Char) (h : isSepChar c = false) :
    ∀ x ∈ upCharStr c, isSepChar x = false := by
  unfold upCharStr
  split_ifs with hc
  · intro x hx
    fin_cases hx <;> decide
  · intro x hx
    rw [List.mem_singleton] at hx
    subst hx
    exact isSepChar_upChar c h

/-- `titleCharStr` output is separator-free for separator-free input. -/
theorem isSepChar_titleCharStr (c : Char) (h : isSepChar c = false) :
    ∀ x ∈ titleCharStr c, isSepChar x = false := by
  unfold titleCharStr
  split_ifs with hc
  · intro x hx
    fin_cases hx <;> decide
  · intro x hx
    rw [List.mem_singleton] at hx
    subst hx
    exact isSepChar_upChar c h

/-- `pyUpper` on a one-character token. -/
theorem pyUpper_singleton (c : Char) : pyUpper [c] = upCharStr c := by
  simp [pyUpper]

/-- `normStep` is idempotent on ASCII tokens (on general strings it is not:
`ß` upper-cases to `SS`, which then capitalizes to `Ss`). -/
theorem normStep_idem_ascii (t : List Char) (ha : ∀ c ∈ t, c.toNat < 128) :
    normStep (normStep t) = normStep t := by
  cases hf : lookupKey (t.map downChar) comboKeyMap with
  | some v =>
      have h1 : normStep t = v := by unfold normStep; rw [hf]
      obtain ⟨p, hp, -, h2⟩ := lookupKey_mem comboKeyMap hf
      rw [h1, ← h2]
      exact (comboKeyMap_values p hp).1
  | none =>
      have h1 : normStep t = if t.length = 1 then pyUpper t else pyCapitalize t := by
        unfold normStep; rw [hf]
      by_cases hl : t.length = 1
      · obtain ⟨c, rfl⟩ := List.length_eq_one.mp hl
        have hac : c.toNat < 128 := ha c (List.mem_cons_self c [])
        rw [h1, if_pos hl, pyUpper_singleton, upCharStr_of_ne c (ne_sharp_of_ascii c hac)]
        have h2 : lookupKey ([upChar c].map downChar) comboKeyMap = none :=
          lookupKey_none_of_short _ (by simp)
        have hau : (upChar c).toNat < 128 := upChar_ascii c hac
        unfold normStep
        rw [h2, if_pos (by simp), pyUpper_singleton,
            upCharStr_of_ne _ (ne_sharp_of_ascii _ hau), upChar_idem]
      · cases t with
        | nil =>
            rw [h1, if_neg hl]
            rfl
        | cons c cs =>
            have hac : c.toNat < 128 := ha c (List.mem_cons_self c cs)
            rw [h1, if_neg hl]
            dsimp only [pyCapitalize]
            rw [titleCharStr_of_ne c (ne_sharp_of_ascii c hac), List.singleton_append]
            have hkey : (upChar c :: cs.map downChar).map downChar = (c :: cs).map downChar := by
              show downChar (upChar c) :: (cs.map downChar).map downChar = downChar c :: cs.map downChar
              rw [downChar_upChar]
              congr 1
              rw [List.map_map]
              exact List.map_congr_left (fun a _ => downChar_idem a)
            have hau : (upChar c).toNat < 128 := upChar_ascii c hac
            unfold normStep
            rw [hkey, hf,
                if_neg (by simp only [List.length_cons, List.length_map] at hl ⊢; omega)]
            dsimp only [pyCapitalize]
            rw [titleCharStr_of_ne _ (ne_sharp_of_ascii _ hau), List.singleton_append, upChar_idem]
            congr 1
            rw [List.map_map]
            exact List.map_congr_left (fun a _ => downChar_idem a)

/-- `normStep` preserves non-emptiness and separator-freeness. -/
theorem normStep_wf (t : List Char) (hne : t ≠ [])
    (hsep : ∀ c ∈ t, isSepChar c = false) :
    normStep t ≠ [] ∧ ∀ c ∈ normStep t, isSepChar c = false := by
  cases hf : lookupKey (t.map downChar) comboKeyMap with
  | some v =>
      have h1 : normStep t = v := by unfold normStep; rw [hf]
      obtain ⟨p, hp, -, h2⟩ := lookupKey_mem comboKeyMap hf
      rw [h1, ← h2]
      exact ⟨(comboKeyMap_values p hp).2.1, (comboKeyMap_values p hp).2.2⟩
  | none =>
      have h1 : normStep t = if t.length = 1 then pyUpper t else pyCapitalize t := by
        unfold normStep; rw [hf]
      cases t with
      | nil => exact absurd rfl hne
      | cons c cs =>
          by_cases hl : (c :: cs).length = 1
          · obtain rfl : cs = [] := by
              simp only [List.length_cons] at hl
              exact List.length_eq_zero.mp (by omega)
            rw [h1, if_pos hl, pyUpper_singleton]
            exact ⟨upCharStr_ne_nil c,
                   isSepChar_upCharStr c (hsep c (List.mem_cons_self c []))⟩
          · rw [h1, if_neg hl]
            dsimp only [pyCapitalize]
            constructor
            · intro habs
              exact titleCharStr_ne_nil c (List.append_eq_nil.mp habs).1
            · intro x hx
              rcases List.mem_append.mp hx with hx | hx
              · exact isSepChar_titleCharStr c (hsep c (List.mem_cons_self c cs)) x hx
              · rw [List.mem_map] at hx
                obtain ⟨a, ha, rfl⟩ := hx
                exact isSepChar_downChar a (hsep a (List.mem_cons_of_mem c ha))

/-- On ASCII tokens `normStep` outputs ASCII characters. -/
theorem normStep_ascii (t : List Char) (ha : ∀ c ∈ t, c.toNat < 128) :
    ∀ c ∈ normStep t, c.toNat < 128 := by
  have hvals : ∀ p ∈ comboKeyMap, ∀ c ∈ p.2, c.toNat < 128 := by decide
  cases hf : lookupKey (t.map downChar) comboKeyMap with
  | some v =>
      have h1 : normStep t = v := by unfold normStep; rw [hf]
      rw [h1]
      obtain ⟨p, hp, -, h2⟩ := lookupKey_mem comboKeyMap hf
      rw [← h2]
      exact hvals p hp
  | none =>
      have h1 : normStep t = if t.length = 1 then pyUpper t else pyCapitalize t := by
        unfold normStep; rw [hf]
      rw [h1]
      split_ifs with hl
      · obtain ⟨c, rfl⟩ := List.length_eq_one.mp hl
        have hac : c.toNat < 128 := ha c (List.mem_cons_self c [])
        rw [pyUpper_singleton, upCharStr_of_ne c (ne_sharp_of_ascii c hac)]
        intro x hx
        rw [List.mem_singleton] at hx
        subst hx
        exact upChar_ascii c hac
      · cases t with
        | nil => intro x hx; exact absurd hx (List.not_mem_nil x)
        | cons c cs =>
            have hac : c.toNat < 128 := ha c (List.mem_cons_self c cs)
            dsimp only [pyCapitalize]
            intro x hx
            rcases List.mem_append.mp hx with hx | hx
            · rw [titleCharStr_of_ne c (ne_sharp_of_ascii c hac), List.mem_singleton] at hx
              subst hx
              exact upChar_ascii c hac
            · rw [List.mem_map] at hx
              obtain ⟨a, haa, rfl⟩ := hx
              exact downChar_ascii a (ha a (List.mem_cons_of_mem c haa))

/-- Equation lemma for `tokAux` on the empty list. -/
theorem tokAux_nil (acc : List Char) : tokAux acc [] = flushTok acc [] := rfl

/-- Equation lemma for `tokAux` on a cons. -/
theorem tokAux_cons (acc : List Char) (c : Char) (cs : List Char) :
    tokAux acc (c :: cs)
      = if isSepChar c then flushTok acc (tokAux [] cs) else tokAux (c :: acc) cs := rfl

/-- Membership in a flushed token list. -/
theorem mem_flushTok {t acc : List Char} {ts : List (List Char)}
    (h : t ∈ flushTok acc ts) : t ∈ ts ∨ (acc ≠ [] ∧ t = acc.reverse) := by
  unfold flushTok at h
  split_ifs at h with he
  · exact Or.inl h
  · rcases List.mem_cons.mp h with rfl | h
    · exact Or.inr ⟨he, rfl⟩
    · exact Or.inl h

/-- Every token produced by the tokenizer is non-empty and separator-free. -/
theorem tokAux_wf (cs : List Char) :
    ∀ acc : List Char, (∀ c ∈ acc, isSepChar c = false) →
      ∀ t ∈ tokAux acc cs, t ≠ [] ∧ ∀ c ∈ t, isSepChar c = false := by
  induction cs with
  | nil =>
      intro acc hacc t ht
      rw [tokAux_nil] at ht
      rcases mem_flushTok ht with h | ⟨hne, rfl⟩
      · exact absurd h (List.not_mem_nil t)
      · exact ⟨by simpa using hne, fun c hc => hacc c (List.mem_reverse.mp hc)⟩
  | cons a cs ih =>
      intro acc hacc t ht
      rw [tokAux_cons] at ht
      split_ifs at ht with hsep
      · rcases mem_flushTok ht with h | ⟨hne, rfl⟩
        · exact ih [] (fun c hc => absurd hc (List.not_mem_nil c)) t h
        · exact ⟨by simpa using hne, fun c hc => hacc c (List.mem_reverse.mp hc)⟩
      · refine ih (a :: acc) ?_ t ht
        intro c hc
        rcases List.mem_cons.mp hc with rfl | hc
        · simpa using hsep
        · exact hacc c hc

/-- Every character of a tokenizer output token comes from the accumulator
or the input, so any characterwise property of the input carries over. -/
theorem tokAux_chars (P : Char → Prop) (cs : List Char) :
    ∀ acc : List Char, (∀ c ∈ acc, P c) → (∀ c ∈ cs, P c) →
      ∀ t ∈ tokAux acc cs, ∀ c ∈ t, P c := by
  induction cs with
  | nil =>
      intro acc hacc _ t ht
      rw [tokAux_nil] at ht
      rcases mem_flushTok ht with h | ⟨-, rfl⟩
      · exact absurd h (List.not_mem_nil t)
      · exact fun c hc => hacc c (List.mem_reverse.mp hc)
  | cons a cs ih =>
      intro acc hacc hcs t ht
      rw [tokAux_cons] at ht
      split_ifs at ht with hsep
      · rcases mem_flushTok ht with h | ⟨-, rfl⟩
        · exact ih [] (fun c hc => absurd hc (List.not_mem_nil c))
            (fun c hc => hcs c (List.mem_cons_of_mem a hc)) t h
        · exact fun c hc => hacc c (List.mem_reverse.mp hc)
      · refine ih (a :: acc) ?_ (fun c hc => hcs c (List.mem_cons_of_mem a hc)) t ht
        intro c hc
        rcases List.mem_cons.mp hc with rfl | hc
        · exact hcs _ (List.mem_cons_self _ cs)
        · exact hacc c hc

/-- Feeding a separator-free chunk into the tokenizer accumulates it. -/
theorem tokAux_append_nonsep (u : List Char) :
    ∀ (l acc : List Char), (∀ c ∈ u, isSepChar c = false) →
      tokAux acc (u ++ l) = tokAux (u.reverse ++ acc) l := by
  induction u with
  | nil => intro l acc _; rfl
  | cons c u ih =>
      intro l acc hu
      have hc : isSepChar c = false := hu c (List.mem_cons_self c u)
      show tokAux acc (c :: (u ++ l)) = _
      rw [tokAux_cons, if_neg (by simp [hc])]
      rw [ih l (c :: acc) (fun x hx => hu x (List.mem_cons_of_mem c hx))]
      congr 1
      simp

/-- Tokenizing a `+`-join of non-empty separator-free tokens recovers them. -/
theorem tokenize_joinPlus : ∀ ts : List (List Char),
    (∀ t ∈ ts, t ≠ [] ∧ ∀ c ∈ t, isSepChar c = false) →
    tokenize (joinPlus ts) = ts := by
  intro ts
  induction ts with
  | nil => intro _; rfl
  | cons t ts ih =>
      intro h
      have ht := h t (List.mem_cons_self t ts)
      cases ts with
      | nil =>
          show tokAux [] (joinPlus [t]) = [t]
          have happ := tokAux_append_nonsep t [] [] ht.2
          rw [List.append_nil] at happ
          show tokAux [] t = [t]
          rw [happ, List.append_nil, tokAux_nil]
          unfold flushTok
          rw [if_neg (by simpa using ht.1), List.reverse_reverse]
      | cons t2 ts2 =>
          show tokAux [] (t ++ '+' :: joinPlus (t2 :: ts2)) = t :: t2 :: ts2
          rw [tokAux_append_nonsep t _ [] ht.2, List.append_nil, tokAux_cons,
              if_pos (by decide)]
          rw [show tokAux [] (joinPlus (t2 :: ts2)) = tokenize (joinPlus (t2 :: ts2)) from rfl]
          rw [ih (fun x hx => h x (List.mem_cons_of_mem t hx))]
          unfold flushTok
          rw [if_neg (by simpa using ht.1), List.reverse_reverse]

/-- The modifier keys are fixed points of `normStep`, non-empty, and
separator-free. -/
theorem modifier_keys_wf :
    ∀ m ∈ MODIFIER_KEYS, normStep m = m ∧ m ≠ [] ∧ ∀ c ∈ m, isSepChar c = false := by
  decide

/-- Tokenizing the joined, reordered token list recovers it, and the filter
computations describing the modifiers-first shape. -/
theorem joinPlus_tokens (norm : List (List Char))
    (hwf : ∀ n ∈ norm, n ≠ [] ∧ ∀ c ∈ n, isSepChar c = false) :
    tokenize (joinPlus (MODIFIER_KEYS.filter (fun m => decide (m ∈ norm))
        ++ norm.filter (fun k => decide (k ∉ MODIFIER_KEYS))))
      = MODIFIER_KEYS.filter (fun m => decide (m ∈ norm))
        ++ norm.filter (fun k => decide (k ∉ MODIFIER_KEYS)) ∧
    (MODIFIER_KEYS.filter (fun m => decide (m ∈ norm))
        ++ norm.filter (fun k => decide (k ∉ MODIFIER_KEYS))).filter
          (fun t => decide (t ∈ MODIFIER_KEYS))
      = MODIFIER_KEYS.filter (fun m => decide (m ∈ norm)) ∧
    (MODIFIER_KEYS.filter (fun m => decide (m ∈ norm))
        ++ norm.filter (fun k => decide (k ∉ MODIFIER_KEYS))).filter
          (fun t => decide (t ∉ MODIFIER_KEYS))
      = norm.filter (fun k => decide (k ∉ MODIFIER_KEYS)) ∧
    MODIFIER_KEYS.filter (fun m => decide (m ∈
        MODIFIER_KEYS.filter (fun m2 => decide (m2 ∈ norm))
          ++ norm.filter (fun k => decide (k ∉ MODIFIER_KEYS))))
      = MODIFIER_KEYS.filter (fun m => decide (m ∈ norm)) := by
  set mods := MODIFIER_KEYS.filter (fun m => decide (m ∈ norm)) with hmods
  set rest := norm.filter (fun k => decide (k ∉ MODIFIER_KEYS)) with hrest
  have hmods_sub : ∀ t ∈ mods, t ∈ MODIFIER_KEYS := fun t ht => (List.mem_filter.mp ht).1
  have hrest_mem : ∀ t ∈ rest, t ∈ norm := fun t ht => (List.mem_filter.mp ht).1
  have hrest_not : ∀ t ∈ rest, t ∉ MODIFIER_KEYS :=
    fun t ht => of_decide_eq_true (List.mem_filter.mp ht).2
  have hwf_tok : ∀ t ∈ mods ++ rest, t ≠ [] ∧ ∀ c ∈ t, isSepChar c = false := by
    intro t ht
    rcases List.mem_append.mp ht with h | h
    · exact ⟨(modifier_keys_wf t (hmods_sub t h)).2.1, (modifier_keys_wf t (hmods_sub t h)).2.2⟩
    · exact hwf t (hrest_mem t h)
  have htok : tokenize (joinPlus (mods ++ rest)) = mods ++ rest :=
    tokenize_joinPlus _ hwf_tok
  have f1 : (mods ++ rest).filter (fun t => decide (t ∈ MODIFIER_KEYS)) = mods := by
    rw [List.filter_append,
        List.filter_eq_self.mpr (fun t ht => decide_eq_true (hmods_sub t ht)),
        List.filter_eq_nil_iff.mpr
          (fun t ht hd => (hrest_not t ht) (of_decide_eq_true hd)),
        List.append_nil]
  have f2 : (mods ++ rest).filter (fun t => decide (t ∉ MODIFIER_KEYS)) = rest := by
    rw [List.filter_append,
        List.filter_eq_nil_iff.mpr (fun t ht hd => (of_decide_eq_true hd) (hmods_sub t ht)),
        List.filter_eq_self.mpr (fun t ht => (List.mem_filter.mp ht).2),
        List.nil_append]
  have f3 : MODIFIER_KEYS.filter (fun m => decide (m ∈ mods ++ rest)) = mods := by
    have hcong : MODIFIER_KEYS.filter (fun m => decide (m ∈ mods ++ rest))
        = MODIFIER_KEYS.filter (fun m => decide (m ∈ norm)) := by
      apply List.filter_congr
      intro m hm
      apply decide_eq_decide.mpr
      constructor
      · intro hmm
        rcases List.mem_append.mp hmm with h | h
        · exact of_decide_eq_true (List.mem_filter.mp h).2
        · exact absurd hm (hrest_not m h)
      · intro hmn
        exact List.mem_append.mpr (Or.inl (List.mem_filter.mpr ⟨hm, decide_eq_true hmn⟩))
    rw [hcong]
  exact ⟨htok, f1, f2, f3⟩

/-- Re-running the normalization pipeline on the joined, reordered token
list of `normStep` fixed points reproduces it. -/
theorem joinPlus_idem (norm : List (List Char))
    (hfix : ∀ n ∈ norm, normStep n = n)
    (hwf : ∀ n ∈ norm, n ≠ [] ∧ ∀ c ∈ n, isSepChar c = false)
    (hne : norm ≠ []) :
    normalize_combo (joinPlus (MODIFIER_KEYS.filter (fun m => decide (m ∈ norm))
        ++ norm.filter (fun k => decide (k ∉ MODIFIER_KEYS))))
      = joinPlus (MODIFIER_KEYS.filter (fun m => decide (m ∈ norm))
        ++ norm.filter (fun k => decide (k ∉ MODIFIER_KEYS))) := by
  obtain ⟨htok, f1, f2, f3⟩ := joinPlus_tokens norm hwf
  set mods := MODIFIER_KEYS.filter (fun m => decide (m ∈ norm)) with hmods
  set rest := norm.filter (fun k => decide (k ∉ MODIFIER_KEYS)) with hrest
  have hmods_sub : ∀ t ∈ mods, t ∈ MODIFIER_KEYS := fun t ht => (List.mem_filter.mp ht).1
  have hrest_mem : ∀ t ∈ rest, t ∈ norm := fun t ht => (List.mem_filter.mp ht).1
  have hne2 : mods ++ rest ≠ [] := by
    obtain ⟨n, hn⟩ := List.exists_mem_of_ne_nil norm hne
    by_cases hm : n ∈ MODIFIER_KEYS
    · exact List.ne_nil_of_mem
        (List.mem_append.mpr (Or.inl (List.mem_filter.mpr ⟨hm, decide_eq_true hn⟩)))
    · exact List.ne_nil_of_mem
        (List.mem_append.mpr (Or.inr (List.mem_filter.mpr ⟨hn, decide_eq_true hm⟩)))
  have hmapfix : (mods ++ rest).map normStep = mods ++ rest := by
    have e : ∀ t ∈ mods ++ rest, normStep t = id t := by
      intro t ht
      rcases List.mem_append.mp ht with h | h
      · exact (modifier_keys_wf t (hmods_sub t h)).1
      · exact hfix t (hrest_mem t h)
    rw [List.map_congr_left e, List.map_id]
  unfold normalize_combo
  dsimp only
  rw [htok, if_neg hne2, hmapfix, f3, f2]

/-- Elements of the normalized token list of an ASCII input are `normStep`
fixed points. -/
theorem norm_elem_fixed_ascii (raw : List (List Char))
    (hchars : ∀ t ∈ raw, ∀ c ∈ t, c.toNat < 128) (n : List Char)
    (hn : n ∈ raw.map normStep) : normStep n = n := by
  rw [List.mem_map] at hn
  obtain ⟨r, hr, rfl⟩ := hn
  exact normStep_idem_ascii r (hchars r hr)

/-- Core facts about `normalize_combo` on character lists: the
modifiers-first normal form of the output on every input, and idempotence
on ASCII inputs. -/
theorem normalize_combo_core (l : List Char) :
    (tokenize (normalize_combo l)
      = (tokenize (normalize_combo l)).filter (fun t => decide (t ∈ MODIFIER_KEYS))
        ++ (tokenize (normalize_combo l)).filter (fun t => decide (t ∉ MODIFIER_KEYS)) ∧
    (tokenize (normalize_combo l)).filter (fun t => decide (t ∈ MODIFIER_KEYS))
      = MODIFIER_KEYS.filter (fun m => decide (m ∈ tokenize (normalize_combo l)))) ∧
    ((∀ c ∈ l, c.toNat < 128) →
      normalize_combo (normalize_combo l) = normalize_combo l) := by
  by_cases hraw : tokenize l = []
  · have h0 : normalize_combo l = [] := by
      unfold normalize_combo
      dsimp only
      rw [if_pos hraw]
    rw [h0]
    exact ⟨⟨rfl, by decide⟩, fun _ => rfl⟩
  · have hwf_raw : ∀ t ∈ tokenize l, t ≠ [] ∧ ∀ c ∈ t, isSepChar c = false :=
      tokAux_wf l [] (fun c hc => absurd hc (List.not_mem_nil c))
    have hwf : ∀ n ∈ (tokenize l).map normStep, n ≠ [] ∧ ∀ c ∈ n, isSepChar c = false := by
      intro n hn
      rw [List.mem_map] at hn
      obtain ⟨r, hr, rfl⟩ := hn
      exact normStep_wf r (hwf_raw r hr).1 (hwf_raw r hr).2
    obtain ⟨htok, f1, f2, f3⟩ := joinPlus_tokens ((tokenize l).map normStep) hwf
    have hnc : normalize_combo l
        = joinPlus (MODIFIER_KEYS.filter (fun m => decide (m ∈ (tokenize l).map normStep))
            ++ ((tokenize l).map normStep).filter (fun k => decide (k ∉ MODIFIER_KEYS))) := by
      unfold normalize_combo
      dsimp only
      rw [if_neg hraw]
    refine ⟨⟨?_, ?_⟩, ?_⟩
    · rw [hnc, htok, f1, f2]
    · rw [hnc, htok, f1, f3]
    · intro hascii
      have hchars : ∀ t ∈ tokenize l, ∀ c ∈ t, c.toNat < 128 :=
        tokAux_chars (fun c => c.toNat < 128) l []
          (fun c hc => absurd hc (List.not_mem_nil c)) hascii
      have hfix : ∀ n ∈ (tokenize l).map normStep, normStep n = n :=
        fun n hn => norm_elem_fixed_ascii _ hchars n hn
      have hne : (tokenize l).map normStep ≠ [] :=
        fun h => hraw (List.map_eq_nil_iff.mp h)
      rw [hnc]
      exact joinPlus_idem ((tokenize l).map normStep) hfix hwf hne

/-- Claim C10 (counterexample): `normalize_combo` is not idempotent on every
input string.  Python's `str.upper` expands `ß` to `SS`, so
`normalize_combo("ß") = "SS"`, while a second normalization capitalizes the
two-character token `SS` to `Ss`. -/
theorem normalize_combo_not_idempotent_sharp_s :
    normalizeComboStr "ß" = "SS" ∧
    normalizeComboStr (normalizeComboStr "ß") = "Ss" ∧
    normalizeComboStr (normalizeComboStr "ß") ≠ normalizeComboStr "ß" := by
  exact ⟨by decide, by decide, by decide⟩

/-- Claim C10 (amended): the output of `normalize_combo` always lists the
modifiers present, in the fixed order `Ctrl, Alt, Shift, Win`, before all
non-modifier tokens; and `normalize_combo` is idempotent on every input
string whose characters are all ASCII.  Unrestricted idempotence fails
because Python case conversion can expand characters (`ß`). -/
theorem normalize_combo_ascii_idempotent_ordered (s : String) :
    (tokenize (normalizeComboStr s).toList
      = (tokenize (normalizeComboStr s).toList).filter (fun t => decide (t ∈ MODIFIER_KEYS))
        ++ (tokenize (normalizeComboStr s).toList).filter (fun t => decide (t ∉ MODIFIER_KEYS)) ∧
    (tokenize (normalizeComboStr s).toList).filter (fun t => decide (t ∈ MODIFIER_KEYS))
      = MODIFIER_KEYS.filter (fun m => decide (m ∈ tokenize (normalizeComboStr s).toList))) ∧
    ((∀ c ∈ s.toList, c.toNat < 128) →
      normalizeComboStr (normalizeComboStr s) = normalizeComboStr s) := by
  obtain ⟨⟨h2, h3⟩, h1⟩ := normalize_combo_core s.toList
  refine ⟨⟨h2, h3⟩, fun ha => ?_⟩
  show String.mk (normalize_combo (String.mk (normalize_combo s.toList)).toList)
      = String.mk (normalize_combo s.toList)
  rw [show (String.mk (normalize_combo s.toList)).toList = normalize_combo s.toList from rfl,
      h1 ha]

/-- Claim C10 (witness): idempotence at the ASCII input "ctrl shift v". -/
theorem normalize_combo_ascii_idempotent_ordered_witness :
    (∀ c ∈ ("ctrl shift v" : String).toList, c.toNat < 128) ∧
    normalizeComboStr (normalizeComboStr "ctrl shift v") = normalizeComboStr "ctrl shift v" :=
  ⟨by decide, (normalize_combo_ascii_idempotent_ordered "ctrl shift v").2 (by decide)⟩

end CyberCommand

